import Mathlib

/-!
Verification of the credential issuance and rotation subsystem
(`src/auth/jwt.ts` in the repository: `issueTokens`, `rotateRefreshToken`,
`authenticateJwt`, `revokeFamily`, the module-level `refreshStore` map).

Modelling choices, each noted at its definition:
* JWT strings are modelled symbolically: a signed token is a record carrying
  its payload, its absolute expiry (seconds), and the secret that signed it.
  `jwt.verify(token, secret, {issuer, audience})` succeeds exactly when the
  signing secret equals the verification secret, issuer and audience match,
  and the token is not expired; it returns the embedded payload.
* `crypto.randomBytes(16).toString('hex')` produces collision-free opaque
  identifiers; the model replaces the random source by a deterministic
  supply of distinct naturals threaded through the state (`nextId`), which
  realises the spec's "colliding ids must never occur" assumption.
* TTL duration strings ('15m', '7d') are modelled as their parsed value in
  seconds.
* The module-level `refreshStore : Map<string, RefreshRecord>` is an
  association list without duplicate keys, with JS `Map.set` semantics
  (overwrite in place if the key exists, append otherwise) and `Map.get`
  semantics (first/only match).
* Stateful functions take the store state explicitly and return the updated
  state; a thrown `Error` is an `Except.error` value paired with the
  (unchanged or changed) state.
-/

/-- `type: 'access' | 'refresh'` of `JwtPayload`. -/
inductive TokenType where
  | access
  | refresh
deriving DecidableEq, Repr

/-- The `JwtPayload` claim set `{sub, iss, aud, jti, type}`.  `jti` is the
opaque unique id (see modelling note on random ids). -/
structure JwtPayload where
  sub : String
  iss : String
  aud : String
  jti : Nat
  type : TokenType
deriving DecidableEq, Repr

/-- A signed JWT string, symbolically: the payload it encodes, the absolute
`exp` claim attached by `jwt.sign` (seconds since epoch), and the secret it
was signed with (standing for the HS256 signature). -/
structure Token where
  payload : JwtPayload
  exp : Nat
  secret : String
deriving DecidableEq, Repr

/-- The server-side `RefreshRecord` `{jti, sub, family, valid, expiresAt}`;
`expiresAt` is in milliseconds as in the source. -/
structure RefreshRecord where
  jti : Nat
  sub : String
  family : Nat
  valid : Bool
  expiresAt : Nat
deriving DecidableEq, Repr

/-- The JWT-relevant part of `AppEnv` (`src/config/env.ts`): secrets, issuer,
audience, TTLs (in seconds, see modelling note). -/
structure Env where
  JWT_ACCESS_SECRET : String
  JWT_REFRESH_SECRET : String
  JWT_ISSUER : String
  JWT_AUDIENCE : String
  ACCESS_TOKEN_TTL : Nat
  REFRESH_TOKEN_TTL : Nat
deriving DecidableEq, Repr

/-- The mutable module state: the `refreshStore` map plus the id supply that
models `crypto.randomBytes` (distinct naturals). -/
structure St where
  store : List (Nat × RefreshRecord)
  nextId : Nat
deriving DecidableEq, Repr

/-- `Map.get`: the record stored under key `j`, if any. -/
def storeGet : List (Nat × RefreshRecord) → Nat → Option RefreshRecord
  | [], _ => none
  | (k, v) :: rest, j => if k = j then some v else storeGet rest j

/-- `Map.set`: overwrite in place when the key is present, append otherwise. -/
def storeSet : List (Nat × RefreshRecord) → Nat → RefreshRecord → List (Nat × RefreshRecord)
  | [], k, v => [(k, v)]
  | (k', v') :: rest, k, v =>
      if k' = k then (k, v) :: rest else (k', v') :: storeSet rest k v

/-- `generateId()`: the next fresh opaque id from the supply. -/
def generateId (st : St) : Nat × St :=
  (st.nextId, { st with nextId := st.nextId + 1 })

/-- `jwt.verify(token, secret, {algorithms, issuer, audience})`: succeeds iff
the token was signed with `secret`, its issuer and audience match, and it is
not expired at time `now` (seconds); returns the embedded payload. -/
def verify (tok : Token) (secret issuer audience : String) (now : Nat) : Option JwtPayload :=
  if tok.secret = secret ∧ tok.payload.iss = issuer ∧ tok.payload.aud = audience ∧ now < tok.exp
  then some tok.payload else none

/-- `issueTokens(subject)`: mint an access/refresh pair, register the refresh
record.  `now` is the current time in seconds.  Mirrors the source line by
line: three `generateId()` calls (access id, refresh id, family), two
`jwt.sign` calls attaching `exp = now + ttl`, the decode-after-sign expiry
(`decoded.exp ? decoded.exp * 1000 : Date.now() + 7*24*3600*1000`), and one
`refreshStore.set`. -/
def issueTokens (env : Env) (now : Nat) (subject : String) (st : St) :
    (Token × Token) × St :=
  let (accessId, st1) := generateId st
  let (refreshId, st2) := generateId st1
  let (family, st3) := generateId st2
  let accessToken : Token :=
    { payload := { sub := subject, iss := env.JWT_ISSUER, aud := env.JWT_AUDIENCE,
                   jti := accessId, type := TokenType.access },
      exp := now + env.ACCESS_TOKEN_TTL, secret := env.JWT_ACCESS_SECRET }
  let refreshToken : Token :=
    { payload := { sub := subject, iss := env.JWT_ISSUER, aud := env.JWT_AUDIENCE,
                   jti := refreshId, type := TokenType.refresh },
      exp := now + env.REFRESH_TOKEN_TTL, secret := env.JWT_REFRESH_SECRET }
  let exp := if refreshToken.exp ≠ 0 then refreshToken.exp * 1000
             else now * 1000 + 7 * 24 * 3600 * 1000
  let st4 := { st3 with
    store := storeSet st3.store refreshId
      { jti := refreshId, sub := subject, family := family, valid := true, expiresAt := exp } }
  ((accessToken, refreshToken), st4)

/-- The two `Error` messages `rotateRefreshToken` throws. -/
inductive RotateErr where
  | invalid_refresh
  | refresh_reused_or_revoked
deriving DecidableEq, Repr

/-- `rotateRefreshToken(oldToken)`: verify against the refresh secret, reject
non-refresh kinds, look up the record, reject absent/invalid, mark the old
record invalid, then mint a new pair via `issueTokens`.  Returns the outcome
together with the post-state (unchanged on every error path, exactly as the
source throws before any mutation). -/
def rotateRefreshToken (env : Env) (now : Nat) (oldToken : Token) (st : St) :
    Except RotateErr (Token × Token) × St :=
  match verify oldToken env.JWT_REFRESH_SECRET env.JWT_ISSUER env.JWT_AUDIENCE now with
  | none => (Except.error RotateErr.invalid_refresh, st)
  | some payload =>
    if payload.type ≠ TokenType.refresh then
      (Except.error RotateErr.invalid_refresh, st)
    else
      match storeGet st.store payload.jti with
      | none => (Except.error RotateErr.refresh_reused_or_revoked, st)
      | some record =>
        if record.valid = false then
          (Except.error RotateErr.refresh_reused_or_revoked, st)
        else
          -- Revoke old
          let record1 := { record with valid := false }
          let st1 := { st with store := storeSet st.store record1.jti record1 }
          -- Issue new in same family (sic: `issueTokens` generates a fresh family)
          let (pair, st2) := issueTokens env now payload.sub st1
          (Except.ok pair, st2)

/-- The observable outcomes of the `authenticateJwt` middleware: the three
401 bodies, or success (`req.jwt = decoded; next()`). -/
inductive AuthResult where
  | missing_token
  | invalid_token
  | invalid_token_type
  | ok (payload : JwtPayload)
deriving DecidableEq, Repr

/-- `authenticateJwt(req, res, next)`: the bearer token extracted from the
`Authorization` header (`none` when the header is absent or lacks the
`Bearer ` prefix, which the source maps to `missing_token`), verified against
the access secret, with the kind check `decoded.type !== 'access'`.
Touches no store state. -/
def authenticateJwt (env : Env) (now : Nat) (token : Option Token) : AuthResult :=
  match token with
  | none => AuthResult.missing_token
  | some tok =>
    match verify tok env.JWT_ACCESS_SECRET env.JWT_ISSUER env.JWT_AUDIENCE now with
    | none => AuthResult.invalid_token
    | some decoded =>
      if decoded.type ≠ TokenType.access then AuthResult.invalid_token_type
      else AuthResult.ok decoded

/-- `revokeFamily(subject)`: set `valid = false` on every record whose `sub`
matches.  The source iterates the map and `set`s each matching key back in
place, which preserves keys and order. -/
def revokeFamily (subject : String) (st : St) : St :=
  { st with
    store := st.store.map (fun p =>
      if p.2.sub = subject then (p.1, { p.2 with valid := false }) else p) }

/-- Number of store entries under key `j` ("exactly one ledger record"). -/
def countKey : List (Nat × RefreshRecord) → Nat → Nat
  | [], _ => 0
  | (k, _) :: rest, j => (if k = j then 1 else 0) + countKey rest j

/-- Contribution of a single record to the valid count of subject `sub`. -/
def countOne (r : RefreshRecord) (sub : String) : Nat :=
  if r.sub = sub ∧ r.valid = true then 1 else 0

/-- Number of valid records belonging to subject `sub`. -/
def countValidFor : List (Nat × RefreshRecord) → String → Nat
  | [], _ => 0
  | (_, r) :: rest, sub => countOne r sub + countValidFor rest sub

/-! ### Well-formedness of reachable states

Every record is stored under its own `jti`, and every key (and every stored
`family`) was produced by the id supply, so fresh ids never collide with
existing keys.  This is the model's rendering of the spec's global-uniqueness
invariant for generated ids. -/

/-- Store well-formedness: each record is keyed by its `jti`, and all keys
are below the supply counter. -/
def StoreInv (st : St) : Prop :=
  ∀ p ∈ st.store, p.2.jti = p.1 ∧ p.1 < st.nextId

/-- One step of the module's public API acting on the store state.
`authenticateJwt` reads no store state, so its ledger effect is the
identity. -/
inductive Step (env : Env) : St → St → Prop
  | issue (now : Nat) (subject : String) (st : St) :
      Step env st (issueTokens env now subject st).2
  | rotate (now : Nat) (tok : Token) (st st' : St)
      (res : Except RotateErr (Token × Token)) :
      rotateRefreshToken env now tok st = (res, st') → Step env st st'
  | revoke (subject : String) (st : St) : Step env st (revokeFamily subject st)
  | authenticate (now : Nat) (tok : Option Token) (st : St) : Step env st st

/-- States reachable from the initial empty `refreshStore`. -/
inductive Reachable (env : Env) : St → Prop
  | init : Reachable env { store := [], nextId := 0 }
  | step {st st' : St} : Reachable env st → Step env st st' → Reachable env st'


/-! ### Concrete instances used to witness the theorems

`testEnv` is a configuration with distinct access/refresh secrets (the
normal deployment shape); the remaining constants are the exact values
produced by `issueTokens testEnv 0 "app-1" initSt` and by rotating the
resulting refresh token. -/

def testEnv : Env :=
  { JWT_ACCESS_SECRET := "access-secret", JWT_REFRESH_SECRET := "refresh-secret",
    JWT_ISSUER := "issuer", JWT_AUDIENCE := "audience",
    ACCESS_TOKEN_TTL := 900, REFRESH_TOKEN_TTL := 604800 }

/-- The initial (empty) module state. -/
def initSt : St := { store := [], nextId := 0 }

/-- Access token of the first login (`issueTokens testEnv 0 "app-1" initSt`). -/
def accessTok1 : Token :=
  { payload := { sub := "app-1", iss := "issuer", aud := "audience",
                 jti := 0, type := TokenType.access },
    exp := 900, secret := "access-secret" }

/-- Refresh token of the first login. -/
def refreshTok1 : Token :=
  { payload := { sub := "app-1", iss := "issuer", aud := "audience",
                 jti := 1, type := TokenType.refresh },
    exp := 604800, secret := "refresh-secret" }

/-- Ledger record registered by the first login. -/
def rec1 : RefreshRecord :=
  { jti := 1, sub := "app-1", family := 2, valid := true, expiresAt := 604800000 }

/-- State after the first login. -/
def st1W : St := { store := [(1, rec1)], nextId := 3 }

/-- Access token minted by rotating `refreshTok1`. -/
def accessTok2 : Token :=
  { payload := { sub := "app-1", iss := "issuer", aud := "audience",
                 jti := 3, type := TokenType.access },
    exp := 900, secret := "access-secret" }

/-- Refresh token minted by rotating `refreshTok1`. -/
def refreshTok2 : Token :=
  { payload := { sub := "app-1", iss := "issuer", aud := "audience",
                 jti := 4, type := TokenType.refresh },
    exp := 604800, secret := "refresh-secret" }

/-- Ledger record registered by the rotation. -/
def rec2 : RefreshRecord :=
  { jti := 4, sub := "app-1", family := 5, valid := true, expiresAt := 604800000 }

/-- State after rotating `refreshTok1` in `st1W`. -/
def st2W : St :=
  { store := [(1, { rec1 with valid := false }), (4, rec2)], nextId := 6 }

/-- A valid ledger record of a different subject. -/
def recB : RefreshRecord :=
  { jti := 10, sub := "other", family := 11, valid := true, expiresAt := 604800000 }

/-- A state holding records of two different subjects. -/
def stTwo : St := { store := [(1, rec1), (10, recB)], nextId := 20 }

/-- The refresh token matching `recB`. -/
def tokB : Token :=
  { payload := { sub := "other", iss := "issuer", aud := "audience",
                 jti := 10, type := TokenType.refresh },
    exp := 604800, secret := "refresh-secret" }

/-- A refresh-shaped token signed with the wrong secret. -/
def tokBadSecret : Token :=
  { payload := { sub := "app-1", iss := "issuer", aud := "audience",
                 jti := 1, type := TokenType.refresh },
    exp := 604800, secret := "wrong-secret" }


/-! ### Lemmas about the store (JS `Map` semantics of the association list) -/

theorem storeGet_storeSet_self : ∀ (s : List (Nat × RefreshRecord)) (k : Nat) (v : RefreshRecord),
    storeGet (storeSet s k v) k = some v
  | [], k, v => by simp [storeSet, storeGet]
  | (k', v') :: rest, k, v => by
    by_cases h : k' = k
    · simp [storeSet, storeGet, h]
    · simp [storeSet, storeGet, h, storeGet_storeSet_self rest k v]

theorem storeGet_storeSet_ne : ∀ (s : List (Nat × RefreshRecord)) (k j : Nat) (v : RefreshRecord),
    j ≠ k → storeGet (storeSet s k v) j = storeGet s j
  | [], k, j, v, h => by
    have hkj : ¬ k = j := fun hh => h hh.symm
    simp [storeSet, storeGet, hkj]
  | (k', v') :: rest, k, j, v, h => by
    have hkj : ¬ k = j := fun hh => h hh.symm
    by_cases hk : k' = k
    · subst hk
      simp [storeSet, storeGet, hkj]
    · simp only [storeSet, if_neg hk, storeGet]
      by_cases hj : k' = j
      · simp [hj]
      · simp [hj, storeGet_storeSet_ne rest k j v h]

theorem mem_of_mem_storeSet : ∀ (s : List (Nat × RefreshRecord)) (k : Nat)
    (v : RefreshRecord) (p : Nat × RefreshRecord),
    p ∈ storeSet s k v → p = (k, v) ∨ p ∈ s
  | [], k, v, p, h => by
    simp [storeSet] at h
    exact Or.inl h
  | (k', v') :: rest, k, v, p, h => by
    by_cases hk : k' = k
    · simp [storeSet, hk] at h
      rcases h with h | h
      · exact Or.inl (by simp [h])
      · exact Or.inr (List.mem_cons_of_mem _ h)
    · simp [storeSet, hk] at h
      rcases h with h | h
      · exact Or.inr (by simp [h])
      · rcases mem_of_mem_storeSet rest k v p h with h' | h'
        · exact Or.inl h'
        · exact Or.inr (List.mem_cons_of_mem _ h')

theorem storeGet_mem : ∀ (s : List (Nat × RefreshRecord)) (j : Nat) (r : RefreshRecord),
    storeGet s j = some r → (j, r) ∈ s
  | [], j, r, h => by simp [storeGet] at h
  | (k', v') :: rest, j, r, h => by
    by_cases hk : k' = j
    · simp [storeGet, hk] at h
      simp [hk, h]
    · simp [storeGet, hk] at h
      exact List.mem_cons_of_mem _ (storeGet_mem rest j r h)

theorem countKey_eq_zero : ∀ (s : List (Nat × RefreshRecord)) (j : Nat),
    (∀ p ∈ s, p.1 ≠ j) → countKey s j = 0
  | [], _, _ => rfl
  | (k, v) :: rest, j, h => by
    have hk : k ≠ j := h (k, v) (List.mem_cons_self _ _)
    simp [countKey, hk, countKey_eq_zero rest j (fun p hp => h p (List.mem_cons_of_mem _ hp))]

theorem countKey_storeSet_fresh : ∀ (s : List (Nat × RefreshRecord)) (j : Nat)
    (v : RefreshRecord), (∀ p ∈ s, p.1 ≠ j) → countKey (storeSet s j v) j = 1
  | [], j, v, _ => by simp [storeSet, countKey]
  | (k, v') :: rest, j, v, h => by
    have hk : k ≠ j := h (k, v') (List.mem_cons_self _ _)
    simp [storeSet, hk, countKey,
      countKey_storeSet_fresh rest j v (fun p hp => h p (List.mem_cons_of_mem _ hp))]

theorem countValidFor_storeSet_of_get :
    ∀ (s : List (Nat × RefreshRecord)) (j : Nat) (v r0 : RefreshRecord) (sub : String),
    storeGet s j = some r0 →
    countValidFor (storeSet s j v) sub + countOne r0 sub
      = countValidFor s sub + countOne v sub
  | [], j, v, r0, sub, h => by simp [storeGet] at h
  | (k, v') :: rest, j, v, r0, sub, h => by
    by_cases hk : k = j
    · simp [storeGet, hk] at h
      subst h
      simp [storeSet, hk, countValidFor]
      omega
    · simp [storeGet, hk] at h
      have ih := countValidFor_storeSet_of_get rest j v r0 sub h
      simp [storeSet, hk, countValidFor]
      omega

theorem countValidFor_storeSet_fresh :
    ∀ (s : List (Nat × RefreshRecord)) (j : Nat) (v : RefreshRecord) (sub : String),
    (∀ p ∈ s, p.1 ≠ j) →
    countValidFor (storeSet s j v) sub = countValidFor s sub + countOne v sub
  | [], j, v, sub, _ => by simp [storeSet, countValidFor]
  | (k, v') :: rest, j, v, sub, h => by
    have hk : k ≠ j := h (k, v') (List.mem_cons_self _ _)
    have ih := countValidFor_storeSet_fresh rest j v sub
      (fun p hp => h p (List.mem_cons_of_mem _ hp))
    simp [storeSet, hk, countValidFor, ih]
    omega

/-- Reading the store after `revokeFamily`: the record of key `j`, with
`valid` cleared when its subject matches. -/
theorem storeGet_revokeFamily (subject : String) (st : St) (j : Nat) :
    storeGet (revokeFamily subject st).store j
      = (storeGet st.store j).map
          (fun r => if r.sub = subject then { r with valid := false } else r) := by
  show storeGet (st.store.map _) j = _
  induction st.store with
  | nil => simp [storeGet]
  | cons p rest ih =>
    obtain ⟨k, v⟩ := p
    simp only [List.map_cons]
    by_cases hs : v.sub = subject
    · rw [if_pos hs]
      by_cases hk : k = j
      · simp [storeGet, hk, hs]
      · simp [storeGet, hk, ih]
    · rw [if_neg hs]
      by_cases hk : k = j
      · simp [storeGet, hk, hs]
      · simp [storeGet, hk, ih]


/-! ### Unfolding equations for the operations -/

/-- `issueTokens` written out: the pair of signed tokens and the new state
(ids `nextId`, `nextId+1`, `nextId+2`; counter advanced by 3; the refresh
record registered under the refresh id). -/
theorem issueTokens_def (env : Env) (now : Nat) (subject : String) (st : St) :
    issueTokens env now subject st =
      (({ payload := { sub := subject, iss := env.JWT_ISSUER, aud := env.JWT_AUDIENCE,
                       jti := st.nextId, type := TokenType.access },
          exp := now + env.ACCESS_TOKEN_TTL, secret := env.JWT_ACCESS_SECRET },
        { payload := { sub := subject, iss := env.JWT_ISSUER, aud := env.JWT_AUDIENCE,
                       jti := st.nextId + 1, type := TokenType.refresh },
          exp := now + env.REFRESH_TOKEN_TTL, secret := env.JWT_REFRESH_SECRET }),
       { store := storeSet st.store (st.nextId + 1)
           { jti := st.nextId + 1, sub := subject, family := st.nextId + 2, valid := true,
             expiresAt := if now + env.REFRESH_TOKEN_TTL ≠ 0
                          then (now + env.REFRESH_TOKEN_TTL) * 1000
                          else now * 1000 + 7 * 24 * 3600 * 1000 },
         nextId := st.nextId + 3 }) := rfl

theorem verify_eq_some {tok : Token} {secret issuer audience : String} {now : Nat}
    {p : JwtPayload} :
    verify tok secret issuer audience now = some p ↔
      p = tok.payload ∧ tok.secret = secret ∧ tok.payload.iss = issuer ∧
      tok.payload.aud = audience ∧ now < tok.exp := by
  constructor
  · intro h
    unfold verify at h
    split at h
    · rename_i hc
      cases h
      exact ⟨rfl, hc.1, hc.2.1, hc.2.2.1, hc.2.2.2⟩
    · exact Option.noConfusion h
  · rintro ⟨hp, h1, h2, h3, h4⟩
    subst hp
    unfold verify
    rw [if_pos ⟨h1, h2, h3, h4⟩]

theorem rotate_verify_none (env : Env) (now : Nat) (tok : Token) (st : St)
    (h : verify tok env.JWT_REFRESH_SECRET env.JWT_ISSUER env.JWT_AUDIENCE now = none) :
    rotateRefreshToken env now tok st = (Except.error RotateErr.invalid_refresh, st) := by
  unfold rotateRefreshToken
  rw [h]

theorem rotate_wrong_type (env : Env) (now : Nat) (tok : Token) (st : St) (p : JwtPayload)
    (hv : verify tok env.JWT_REFRESH_SECRET env.JWT_ISSUER env.JWT_AUDIENCE now = some p)
    (ht : p.type ≠ TokenType.refresh) :
    rotateRefreshToken env now tok st = (Except.error RotateErr.invalid_refresh, st) := by
  unfold rotateRefreshToken
  rw [hv]
  simp [ht]

theorem rotate_no_record (env : Env) (now : Nat) (tok : Token) (st : St) (p : JwtPayload)
    (hv : verify tok env.JWT_REFRESH_SECRET env.JWT_ISSUER env.JWT_AUDIENCE now = some p)
    (ht : p.type = TokenType.refresh)
    (hg : storeGet st.store p.jti = none) :
    rotateRefreshToken env now tok st
      = (Except.error RotateErr.refresh_reused_or_revoked, st) := by
  unfold rotateRefreshToken
  rw [hv]
  simp [ht, hg]

theorem rotate_invalid_record (env : Env) (now : Nat) (tok : Token) (st : St)
    (p : JwtPayload) (record : RefreshRecord)
    (hv : verify tok env.JWT_REFRESH_SECRET env.JWT_ISSUER env.JWT_AUDIENCE now = some p)
    (ht : p.type = TokenType.refresh)
    (hg : storeGet st.store p.jti = some record)
    (hr : record.valid = false) :
    rotateRefreshToken env now tok st
      = (Except.error RotateErr.refresh_reused_or_revoked, st) := by
  unfold rotateRefreshToken
  rw [hv]
  simp [ht, hg, hr]

theorem rotate_success (env : Env) (now : Nat) (tok : Token) (st : St)
    (p : JwtPayload) (record : RefreshRecord)
    (hv : verify tok env.JWT_REFRESH_SECRET env.JWT_ISSUER env.JWT_AUDIENCE now = some p)
    (ht : p.type = TokenType.refresh)
    (hg : storeGet st.store p.jti = some record)
    (hr : record.valid = true) :
    rotateRefreshToken env now tok st
      = (Except.ok (issueTokens env now p.sub
           { st with store := (storeSet st.store record.jti
               { record with valid := false }) }).1,
         (issueTokens env now p.sub
           { st with store := (storeSet st.store record.jti
               { record with valid := false }) }).2) := by
  unfold rotateRefreshToken
  rw [hv]
  simp [ht, hg, hr]

/-- Inversion: what a successful rotation implies about its input, and what
its outputs are. -/
theorem rotate_ok_inv (env : Env) (now : Nat) (tok : Token) (st : St)
    (res : Token × Token) (st' : St)
    (h : rotateRefreshToken env now tok st = (Except.ok res, st')) :
    ∃ record : RefreshRecord,
      verify tok env.JWT_REFRESH_SECRET env.JWT_ISSUER env.JWT_AUDIENCE now
        = some tok.payload ∧
      tok.payload.type = TokenType.refresh ∧
      storeGet st.store tok.payload.jti = some record ∧ record.valid = true ∧
      res = (issueTokens env now tok.payload.sub
        { st with store := (storeSet st.store record.jti
            { record with valid := false }) }).1 ∧
      st' = (issueTokens env now tok.payload.sub
        { st with store := (storeSet st.store record.jti
            { record with valid := false }) }).2 := by
  cases hv : verify tok env.JWT_REFRESH_SECRET env.JWT_ISSUER env.JWT_AUDIENCE now with
  | none =>
    rw [rotate_verify_none env now tok st hv] at h
    rw [Prod.mk.injEq] at h
    exact absurd h.1 (by simp)
  | some p =>
    have hp : p = tok.payload := (verify_eq_some.mp hv).1
    by_cases ht : p.type = TokenType.refresh
    · cases hg : storeGet st.store p.jti with
      | none =>
        rw [rotate_no_record env now tok st p hv ht hg] at h
        rw [Prod.mk.injEq] at h
        exact absurd h.1 (by simp)
      | some record =>
        cases hrv : record.valid with
        | false =>
          rw [rotate_invalid_record env now tok st p record hv ht hg hrv] at h
          rw [Prod.mk.injEq] at h
          exact absurd h.1 (by simp)
        | true =>
          rw [rotate_success env now tok st p record hv ht hg hrv] at h
          rw [Prod.mk.injEq] at h
          obtain ⟨h1, h2⟩ := h
          injection h1 with h1
          subst hp
          exact ⟨record, rfl, ht, hg, hrv, h1.symm, h2.symm⟩
    · rw [rotate_wrong_type env now tok st p hv ht] at h
      rw [Prod.mk.injEq] at h
      exact absurd h.1 (by simp)

/-- A rotation that throws leaves the state untouched. -/
theorem rotate_error_inv (env : Env) (now : Nat) (tok : Token) (st : St)
    (e : RotateErr) (st' : St)
    (h : rotateRefreshToken env now tok st = (Except.error e, st')) : st' = st := by
  cases hv : verify tok env.JWT_REFRESH_SECRET env.JWT_ISSUER env.JWT_AUDIENCE now with
  | none =>
    rw [rotate_verify_none env now tok st hv] at h
    rw [Prod.mk.injEq] at h
    exact h.2.symm
  | some p =>
    by_cases ht : p.type = TokenType.refresh
    · cases hg : storeGet st.store p.jti with
      | none =>
        rw [rotate_no_record env now tok st p hv ht hg] at h
        rw [Prod.mk.injEq] at h
        exact h.2.symm
      | some record =>
        cases hrv : record.valid with
        | false =>
          rw [rotate_invalid_record env now tok st p record hv ht hg hrv] at h
          rw [Prod.mk.injEq] at h
          exact h.2.symm
        | true =>
          rw [rotate_success env now tok st p record hv ht hg hrv] at h
          rw [Prod.mk.injEq] at h
          exact absurd h.1 (by simp)
    · rw [rotate_wrong_type env now tok st p hv ht] at h
      rw [Prod.mk.injEq] at h
      exact h.2.symm

theorem storeInv_issue (env : Env) (now : Nat) (subject : String) (st : St)
    (h : StoreInv st) : StoreInv (issueTokens env now subject st).2 := by
  rw [issueTokens_def]
  intro p hp
  rcases mem_of_mem_storeSet _ _ _ _ hp with hpe | hpm
  · subst hpe
    refine ⟨rfl, ?_⟩
    show st.nextId + 1 < st.nextId + 3
    omega
  · rcases h p hpm with ⟨h1, h2⟩
    refine ⟨h1, ?_⟩
    show p.1 < st.nextId + 3
    omega

theorem storeInv_revoke (subject : String) (st : St) (h : StoreInv st) :
    StoreInv (revokeFamily subject st) := by
  intro p hp
  rcases List.mem_map.mp hp with ⟨q, hq, hfq⟩
  rcases h q hq with ⟨h1, h2⟩
  by_cases hs : q.2.sub = subject
  · rw [← hfq]
    simp only [if_pos hs]
    exact ⟨h1, h2⟩
  · rw [← hfq]
    simp only [if_neg hs]
    exact ⟨h1, h2⟩

theorem storeInv_rotate (env : Env) (now : Nat) (tok : Token) (st st' : St)
    (res : Except RotateErr (Token × Token))
    (hrot : rotateRefreshToken env now tok st = (res, st'))
    (h : StoreInv st) : StoreInv st' := by
  cases res with
  | error e =>
    rw [rotate_error_inv env now tok st e st' hrot]
    exact h
  | ok pair =>
    rcases rotate_ok_inv env now tok st pair st' hrot with ⟨record, hv, ht, hg, hrv, hres, hst'⟩
    rcases h _ (storeGet_mem st.store tok.payload.jti record hg) with ⟨hj, hlt⟩
    subst hst'
    apply storeInv_issue
    intro q hq
    rcases mem_of_mem_storeSet _ _ _ _ hq with hqe | hqm
    · subst hqe
      refine ⟨rfl, ?_⟩
      show record.jti < st.nextId
      rw [hj]
      exact hlt
    · exact h q hqm

/-- The well-formedness invariant holds in every reachable state. -/
theorem reachable_storeInv (env : Env) (st : St) (h : Reachable env st) : StoreInv st := by
  induction h with
  | init =>
    intro p hp
    simp at hp
  | step hr hstep ih =>
    cases hstep with
    | issue now subject st => exact storeInv_issue _ _ _ _ ih
    | rotate now tok st st' res heq => exact storeInv_rotate _ _ _ _ _ _ heq ih
    | revoke subject st => exact storeInv_revoke _ _ ih
    | authenticate now tok st => exact ih

/-- Clearing `valid` on an already-invalid record changes nothing. -/
theorem invalidate_noop (r : RefreshRecord) (h : r.valid = false) :
    ({ r with valid := false } : RefreshRecord) = r := by
  obtain ⟨j, sb, f, v, e⟩ := r
  cases v
  · rfl
  · exact Bool.noConfusion h

/-- The per-entry invalidation map of `revokeFamily` is idempotent. -/
theorem revokeMap_idem (s : String) : ∀ (l : List (Nat × RefreshRecord)),
    ((l.map (fun p =>
        if p.2.sub = s then (p.1, { p.2 with valid := false }) else p)).map (fun p =>
        if p.2.sub = s then (p.1, { p.2 with valid := false }) else p))
      = l.map (fun p => if p.2.sub = s then (p.1, { p.2 with valid := false }) else p)
  | [] => rfl
  | p :: rest => by
    by_cases hs : p.2.sub = s
    · simp only [List.map_cons, if_pos hs]
      exact congrArg (List.cons _) (revokeMap_idem s rest)
    · simp only [List.map_cons, if_neg hs]
      exact congrArg (List.cons _) (revokeMap_idem s rest)

/-- `revokeFamily`'s map is the identity when no entry has the subject. -/
theorem revokeMap_noop (s : String) : ∀ (l : List (Nat × RefreshRecord)),
    (∀ p ∈ l, p.2.sub ≠ s) →
    l.map (fun p => if p.2.sub = s then (p.1, { p.2 with valid := false }) else p) = l
  | [], _ => rfl
  | p :: rest, h => by
    have hp : p.2.sub ≠ s := h p (List.mem_cons_self _ _)
    simp only [List.map_cons, if_neg hp]
    rw [revokeMap_noop s rest (fun q hq => h q (List.mem_cons_of_mem _ hq))]

/-- Core single-use argument: a valid, correctly-keyed refresh token rotates
successfully once, and rotating the same token against the post-state fails
with the reuse error. -/
theorem rotate_then_reuse (env : Env) (now : Nat) (tok : Token) (st : St)
    (rec : RefreshRecord)
    (hsec : tok.secret = env.JWT_REFRESH_SECRET)
    (hiss : tok.payload.iss = env.JWT_ISSUER)
    (haud : tok.payload.aud = env.JWT_AUDIENCE)
    (hexp : now < tok.exp)
    (ht : tok.payload.type = TokenType.refresh)
    (hg : storeGet st.store tok.payload.jti = some rec)
    (hrv : rec.valid = true)
    (hjti : rec.jti = tok.payload.jti)
    (hlt : tok.payload.jti < st.nextId) :
    ∃ pair st2, rotateRefreshToken env now tok st = (Except.ok pair, st2) ∧
      rotateRefreshToken env now tok st2
        = (Except.error RotateErr.refresh_reused_or_revoked, st2) := by
  have hv : verify tok env.JWT_REFRESH_SECRET env.JWT_ISSUER env.JWT_AUDIENCE now
      = some tok.payload := verify_eq_some.mpr ⟨rfl, hsec, hiss, haud, hexp⟩
  have h1 := rotate_success env now tok st tok.payload rec hv ht hg hrv
  refine ⟨_, _, h1, ?_⟩
  have hg2 : storeGet ((issueTokens env now tok.payload.sub
      { st with store := (storeSet st.store rec.jti
          { rec with valid := false }) }).2).store tok.payload.jti
      = some { rec with valid := false } := by
    simp only [issueTokens_def]
    rw [storeGet_storeSet_ne _ _ _ _ (by omega)]
    rw [hjti]
    exact storeGet_storeSet_self _ _ _
  exact rotate_invalid_record env now tok _ tok.payload _ hv ht hg2 rfl


/-- `authenticateJwt` on a present bearer token, written out. -/
theorem authenticateJwt_some (env : Env) (now : Nat) (tok : Token) :
    authenticateJwt env now (some tok)
      = match verify tok env.JWT_ACCESS_SECRET env.JWT_ISSUER env.JWT_AUDIENCE now with
        | none => AuthResult.invalid_token
        | some decoded =>
          if decoded.type ≠ TokenType.access then AuthResult.invalid_token_type
          else AuthResult.ok decoded := rfl


/-! ### The claims -/

/-- C1: Refresh rotation is single-use.  For every freshly issued refresh
token `r` (with its ledger record registered by `issueTokens`), the first
`rotate(r)` succeeds, and rotating the same token against the resulting
state fails with `refresh_reused_or_revoked`: the record is invalid in the
post-state. -/
theorem rotate_single_use (env : Env) (now : Nat) (s : String) (st0 st1 : St)
    (a r : Token) (httl : 0 < env.REFRESH_TOKEN_TTL)
    (hissue : issueTokens env now s st0 = ((a, r), st1)) :
    ∃ pair st2, rotateRefreshToken env now r st1 = (Except.ok pair, st2) ∧
      rotateRefreshToken env now r st2
        = (Except.error RotateErr.refresh_reused_or_revoked, st2) := by
  rw [issueTokens_def, Prod.mk.injEq, Prod.mk.injEq] at hissue
  obtain ⟨⟨ha, hr⟩, hst1⟩ := hissue
  apply rotate_then_reuse env now r st1
    { jti := st0.nextId + 1, sub := s, family := st0.nextId + 2, valid := true,
      expiresAt := if now + env.REFRESH_TOKEN_TTL ≠ 0
                   then (now + env.REFRESH_TOKEN_TTL) * 1000
                   else now * 1000 + 7 * 24 * 3600 * 1000 }
  · rw [← hr]
  · rw [← hr]
  · rw [← hr]
  · rw [← hr]
    show now < now + env.REFRESH_TOKEN_TTL
    omega
  · rw [← hr]
  · rw [← hr, ← hst1]
    exact storeGet_storeSet_self _ _ _
  · rfl
  · rw [← hr]
  · rw [← hr, ← hst1]
    show st0.nextId + 1 < st0.nextId + 3
    omega

/-- C1 witness: the concrete login of subject `"app-1"` on the empty state,
its refresh token rotated once (succeeds) and replayed (rejected). -/
theorem rotate_single_use_witness :
    ∃ pair st2, rotateRefreshToken testEnv 0 refreshTok1 st1W = (Except.ok pair, st2) ∧
      rotateRefreshToken testEnv 0 refreshTok1 st2
        = (Except.error RotateErr.refresh_reused_or_revoked, st2) :=
  rotate_single_use testEnv 0 "app-1" initSt st1W accessTok1 refreshTok1
    (by decide) rfl

/-- C2 (code bug): the lineage id is NOT shared along a rotation chain.
The first login registers its refresh record with `family = 2`; rotating
that refresh token registers the replacement record with `family = 5`,
because `issueTokens` draws a fresh `family` id even when invoked from
`rotateRefreshToken` (despite the source comment "Issue new in same
family"). -/
theorem rotate_generates_fresh_family :
    issueTokens testEnv 0 "app-1" initSt = ((accessTok1, refreshTok1), st1W) ∧
    storeGet st1W.store refreshTok1.payload.jti = some rec1 ∧ rec1.family = 2 ∧
    rotateRefreshToken testEnv 0 refreshTok1 st1W
      = (Except.ok (accessTok2, refreshTok2), st2W) ∧
    storeGet st2W.store refreshTok2.payload.jti = some rec2 ∧ rec2.family = 5 ∧
    rec2.family ≠ rec1.family :=
  ⟨rfl, rfl, rfl, rfl, rfl, rfl, by decide⟩

/-- C4: Rotation preserves subject: a successful `rotate` returns an access
token and a refresh token whose decoded subject equals the subject of the
presented refresh token. -/
theorem rotate_preserves_subject (env : Env) (now : Nat) (tok : Token)
    (st st' : St) (a2 r2 : Token)
    (h : rotateRefreshToken env now tok st = (Except.ok (a2, r2), st')) :
    a2.payload.sub = tok.payload.sub ∧ r2.payload.sub = tok.payload.sub := by
  rcases rotate_ok_inv env now tok st (a2, r2) st' h with
    ⟨record, hv, ht, hg, hrv, hres, hst'⟩
  rw [issueTokens_def, Prod.mk.injEq] at hres
  obtain ⟨ha, hr⟩ := hres
  constructor
  · rw [ha]
  · rw [hr]

/-- C4 witness: the concrete rotation of `refreshTok1` (subject `"app-1"`). -/
theorem rotate_preserves_subject_witness :
    accessTok2.payload.sub = refreshTok1.payload.sub ∧
    refreshTok2.payload.sub = refreshTok1.payload.sub :=
  rotate_preserves_subject testEnv 0 refreshTok1 st1W st2W accessTok2 refreshTok2 rfl

/-- C9: Rotation is atomic on decode failure: when the presented token does
not verify against the refresh secret, or decodes to a kind other than
`refresh`, `rotate` fails with `invalid_refresh` and returns the ledger
state completely unchanged. -/
theorem rotate_error_leaves_ledger_unchanged (env : Env) (now : Nat)
    (tok : Token) (st : St)
    (h : verify tok env.JWT_REFRESH_SECRET env.JWT_ISSUER env.JWT_AUDIENCE now = none
         ∨ tok.payload.type ≠ TokenType.refresh) :
    rotateRefreshToken env now tok st = (Except.error RotateErr.invalid_refresh, st) := by
  rcases h with h | h
  · exact rotate_verify_none env now tok st h
  · cases hv : verify tok env.JWT_REFRESH_SECRET env.JWT_ISSUER env.JWT_AUDIENCE now with
    | none => exact rotate_verify_none env now tok st hv
    | some p =>
      refine rotate_wrong_type env now tok st p hv ?_
      rw [(verify_eq_some.mp hv).1]
      exact h

/-- C9 witness: a refresh-shaped token signed with the wrong secret fails
and leaves the two-subject ledger untouched. -/
theorem rotate_error_leaves_ledger_unchanged_witness :
    rotateRefreshToken testEnv 0 tokBadSecret stTwo
      = (Except.error RotateErr.invalid_refresh, stTwo) :=
  rotate_error_leaves_ledger_unchanged testEnv 0 tokBadSecret stTwo (Or.inl (by decide))

/-- C3: Monotonic consumption: in every reachable ledger state, under every
operation of the module (issue, rotate — succeeding or throwing — revoke,
authenticate), a record that is already invalid is left exactly as it is: no
record ever goes back from `valid = false`, and invalid is terminal. -/
theorem isValid_monotonic (env : Env) (st st' : St) (k : Nat) (r : RefreshRecord)
    (hreach : Reachable env st) (hstep : Step env st st')
    (hget : storeGet st.store k = some r) (hinv : r.valid = false) :
    storeGet st'.store k = some r := by
  have hsi := reachable_storeInv env st hreach
  have hk : k < st.nextId := (hsi _ (storeGet_mem _ _ _ hget)).2
  cases hstep with
  | issue now1 subj1 =>
    simp only [issueTokens_def]
    rw [storeGet_storeSet_ne _ _ _ _ (by omega)]
    exact hget
  | rotate =>
    rename_i now1 tok1 res1 heq
    cases res1 with
    | error e =>
      rw [rotate_error_inv env now1 tok1 st e st' heq]
      exact hget
    | ok pair =>
      rcases rotate_ok_inv env now1 tok1 st pair st' heq with
        ⟨record, hv, ht, hg, hrv, hres, hst'⟩
      have hkne : k ≠ tok1.payload.jti := by
        intro hkj
        subst hkj
        rw [hget] at hg
        injection hg with hg'
        rw [← hg'] at hrv
        rw [hinv] at hrv
        exact Bool.noConfusion hrv
      have hrj := hsi _ (storeGet_mem _ _ _ hg)
      have hne2 : k ≠ record.jti := by
        rw [hrj.1]
        exact hkne
      subst hst'
      simp only [issueTokens_def]
      rw [storeGet_storeSet_ne _ _ _ _ (by omega)]
      rw [storeGet_storeSet_ne _ _ _ _ hne2]
      exact hget
  | revoke subj1 =>
    rw [storeGet_revokeFamily, hget]
    show some (if r.sub = subj1 then { r with valid := false } else r) = some r
    by_cases hs : r.sub = subj1
    · rw [if_pos hs, invalidate_noop r hinv]
    · rw [if_neg hs]
  | authenticate now1 tok1 =>
    exact hget

/-- C3 witness: reach a state by login + revoke (its record is invalid),
then step by a fresh login of another subject: the invalid record is
untouched. -/
theorem isValid_monotonic_witness :
    storeGet ((issueTokens testEnv 5 "bob" (revokeFamily "app-1" st1W)).2).store 1
      = some { rec1 with valid := false } :=
  isValid_monotonic testEnv (revokeFamily "app-1" st1W)
    (issueTokens testEnv 5 "bob" (revokeFamily "app-1" st1W)).2 1
    { rec1 with valid := false }
    (Reachable.step (Reachable.step Reachable.init (Step.issue 0 "app-1" initSt))
      (Step.revoke "app-1" st1W))
    (Step.issue 5 "bob" (revokeFamily "app-1" st1W))
    (by decide) (by decide)

/-- C5: `issue(s)` registers exactly one ledger record under the returned
refresh credential's unique id, holding that id, the subject, `valid =
true`, and the refresh token's absolute expiry (in milliseconds), provided
the generated ids are fresh (all existing keys below the supply counter). -/
theorem issue_registers_one_valid_record (env : Env) (now : Nat) (s : String)
    (st st' : St) (a r : Token)
    (hfresh : ∀ p ∈ st.store, p.1 < st.nextId)
    (httl : 0 < env.REFRESH_TOKEN_TTL)
    (h : issueTokens env now s st = ((a, r), st')) :
    countKey st'.store r.payload.jti = 1 ∧
    ∃ fam, storeGet st'.store r.payload.jti
      = some { jti := r.payload.jti, sub := s, family := fam, valid := true,
               expiresAt := r.exp * 1000 } := by
  rw [issueTokens_def, Prod.mk.injEq, Prod.mk.injEq] at h
  obtain ⟨⟨ha, hr⟩, hst⟩ := h
  have hne : ∀ p ∈ st.store, p.1 ≠ st.nextId + 1 := by
    intro p hp
    have := hfresh p hp
    omega
  constructor
  · rw [← hr, ← hst]
    exact countKey_storeSet_fresh st.store (st.nextId + 1) _ hne
  · refine ⟨st.nextId + 2, ?_⟩
    rw [← hr, ← hst]
    show storeGet (storeSet st.store (st.nextId + 1)
        { jti := st.nextId + 1, sub := s, family := st.nextId + 2, valid := true,
          expiresAt := if now + env.REFRESH_TOKEN_TTL ≠ 0
                       then (now + env.REFRESH_TOKEN_TTL) * 1000
                       else now * 1000 + 7 * 24 * 3600 * 1000 }) (st.nextId + 1)
      = some { jti := st.nextId + 1, sub := s, family := st.nextId + 2, valid := true,
               expiresAt := (now + env.REFRESH_TOKEN_TTL) * 1000 }
    rw [if_pos (by omega : now + env.REFRESH_TOKEN_TTL ≠ 0)]
    exact storeGet_storeSet_self _ _ _

/-- C5 witness: the login of `"app-1"` on the empty state. -/
theorem issue_registers_one_valid_record_witness :
    countKey st1W.store refreshTok1.payload.jti = 1 ∧
    ∃ fam, storeGet st1W.store refreshTok1.payload.jti
      = some { jti := refreshTok1.payload.jti, sub := "app-1", family := fam,
               valid := true, expiresAt := refreshTok1.exp * 1000 } :=
  issue_registers_one_valid_record testEnv 0 "app-1" initSt st1W accessTok1 refreshTok1
    (by intro p hp; exact absurd hp (List.not_mem_nil p)) (by decide) rfl

/-- C6 counterexample: `refreshTok1` is a genuine refresh credential — its
decoded kind is `refresh` and it verifies under the refresh secret — yet
`authenticateJwt` rejects it with the generic `invalid_token`
(InvalidCredential), not `invalid_token_type` (WrongCredentialType): the
signature check against the distinct access secret fails before the kind
test is reached. -/
theorem refresh_token_auth_not_wrong_type :
    refreshTok1.payload.type = TokenType.refresh ∧
    verify refreshTok1 testEnv.JWT_REFRESH_SECRET testEnv.JWT_ISSUER
      testEnv.JWT_AUDIENCE 0 = some refreshTok1.payload ∧
    authenticateJwt testEnv 0 (some refreshTok1) = AuthResult.invalid_token ∧
    AuthResult.invalid_token ≠ AuthResult.invalid_token_type :=
  ⟨rfl, by decide, by decide, by decide⟩

/-- C6 (amended): wrong-kind rejection.  A token whose decoded kind is
`refresh` never authenticates: `authenticateJwt` answers
`invalid_token_type` (WrongCredentialType) exactly when the token verifies
under the ACCESS secret, and the generic `invalid_token` (InvalidCredential)
when that verification fails — which is the case for a genuine refresh
token when the two secrets differ.  An access-kind token presented to
`rotateRefreshToken` always fails with `invalid_refresh`, leaving the state
unchanged. -/
theorem wrong_kind_rejection (env : Env) (now : Nat) (tok : Token) (st : St) :
    (tok.payload.type = TokenType.refresh →
      (∀ p, authenticateJwt env now (some tok) ≠ AuthResult.ok p) ∧
      ((∃ p, verify tok env.JWT_ACCESS_SECRET env.JWT_ISSUER env.JWT_AUDIENCE now
          = some p) →
        authenticateJwt env now (some tok) = AuthResult.invalid_token_type) ∧
      (verify tok env.JWT_ACCESS_SECRET env.JWT_ISSUER env.JWT_AUDIENCE now = none →
        authenticateJwt env now (some tok) = AuthResult.invalid_token)) ∧
    (tok.payload.type = TokenType.access →
      rotateRefreshToken env now tok st
        = (Except.error RotateErr.invalid_refresh, st)) := by
  have hrot : tok.payload.type = TokenType.access →
      rotateRefreshToken env now tok st
        = (Except.error RotateErr.invalid_refresh, st) := by
    intro hta
    cases hv2 : verify tok env.JWT_REFRESH_SECRET env.JWT_ISSUER env.JWT_AUDIENCE now with
    | none => exact rotate_verify_none env now tok st hv2
    | some q =>
      refine rotate_wrong_type env now tok st q hv2 ?_
      rw [(verify_eq_some.mp hv2).1, hta]
      decide
  refine ⟨?_, hrot⟩
  intro htr
  cases hv : verify tok env.JWT_ACCESS_SECRET env.JWT_ISSUER env.JWT_AUDIENCE now with
  | none =>
    have hres : authenticateJwt env now (some tok) = AuthResult.invalid_token := by
      rw [authenticateJwt_some, hv]
    refine ⟨?_, ?_, ?_⟩
    · intro p hc
      rw [hres] at hc
      cases hc
    · rintro ⟨p, hp⟩
      cases hp
    · intro _
      exact hres
  | some p =>
    have hp : p = tok.payload := (verify_eq_some.mp hv).1
    have hres : authenticateJwt env now (some tok) = AuthResult.invalid_token_type := by
      rw [authenticateJwt_some, hv]
      have hpt : p.type ≠ TokenType.access := by
        rw [hp, htr]
        decide
      show (if p.type ≠ TokenType.access then AuthResult.invalid_token_type
            else AuthResult.ok p) = AuthResult.invalid_token_type
      rw [if_pos hpt]
    refine ⟨?_, ?_, ?_⟩
    · intro q hc
      rw [hres] at hc
      cases hc
    · intro _
      exact hres
    · intro hnone
      cases hnone

/-- C7: Revocation is subject-scoped and total: after `revokeFamily s`,
every record of subject `s` is invalid (and a matching refresh token then
fails rotation with `refresh_reused_or_revoked`), while every record whose
subject differs from `s` is left entirely unchanged. -/
theorem revokeAll_subject_scoped (env : Env) (now : Nat) (s : String) (st : St)
    (k : Nat) (r : RefreshRecord) (tok : Token)
    (hget : storeGet st.store k = some r) :
    (r.sub = s →
      storeGet (revokeFamily s st).store k = some { r with valid := false } ∧
      (tok.secret = env.JWT_REFRESH_SECRET → tok.payload.iss = env.JWT_ISSUER →
       tok.payload.aud = env.JWT_AUDIENCE → now < tok.exp →
       tok.payload.type = TokenType.refresh → tok.payload.jti = k →
       rotateRefreshToken env now tok (revokeFamily s st)
         = (Except.error RotateErr.refresh_reused_or_revoked, revokeFamily s st))) ∧
    (r.sub ≠ s → storeGet (revokeFamily s st).store k = some r) := by
  constructor
  · intro hs
    have hget2 : storeGet (revokeFamily s st).store k
        = some { r with valid := false } := by
      rw [storeGet_revokeFamily, hget]
      show some (if r.sub = s then { r with valid := false } else r) = _
      rw [if_pos hs]
    refine ⟨hget2, ?_⟩
    intro hsec hiss haud hexp ht hjti
    have hv : verify tok env.JWT_REFRESH_SECRET env.JWT_ISSUER env.JWT_AUDIENCE now
        = some tok.payload := verify_eq_some.mpr ⟨rfl, hsec, hiss, haud, hexp⟩
    refine rotate_invalid_record env now tok _ tok.payload
      { r with valid := false } hv ht ?_ rfl
    rw [hjti]
    exact hget2
  · intro hs
    rw [storeGet_revokeFamily, hget]
    show some (if r.sub = s then { r with valid := false } else r) = some r
    rw [if_neg hs]

/-- C7 witness: a ledger with a record each for `"app-1"` and `"other"`;
revoking `"app-1"` invalidates its record (and its token no longer
rotates), while the `"other"` record is untouched. -/
theorem revokeAll_subject_scoped_witness :
    (storeGet (revokeFamily "app-1" stTwo).store 1 = some { rec1 with valid := false } ∧
     rotateRefreshToken testEnv 0 refreshTok1 (revokeFamily "app-1" stTwo)
       = (Except.error RotateErr.refresh_reused_or_revoked, revokeFamily "app-1" stTwo)) ∧
    storeGet (revokeFamily "app-1" stTwo).store 10 = some recB := by
  have h1 := (revokeAll_subject_scoped testEnv 0 "app-1" stTwo 1 rec1 refreshTok1
    (by decide)).1 (by decide)
  have h2 := (revokeAll_subject_scoped testEnv 0 "app-1" stTwo 10 recB refreshTok1
    (by decide)).2 (by decide)
  exact ⟨⟨h1.1, h1.2 rfl rfl rfl (by decide) rfl rfl⟩, h2⟩

/-- C8: `revokeFamily` is idempotent, and a no-op when the subject has no
records. -/
theorem revokeAll_idempotent (s : String) (st : St) :
    revokeFamily s (revokeFamily s st) = revokeFamily s st ∧
    ((∀ p ∈ st.store, p.2.sub ≠ s) → revokeFamily s st = st) := by
  obtain ⟨sto, n⟩ := st
  constructor
  · exact congrArg (fun l => St.mk l n) (revokeMap_idem s sto)
  · intro h
    exact congrArg (fun l => St.mk l n) (revokeMap_noop s sto h)

/-- C10: a successful rotation invalidates exactly the presented token's
record, registers exactly one new valid record for the same subject,
leaves every other key untouched, and so preserves the number of valid
records of the rotating subject. -/
theorem rotate_preserves_valid_count (env : Env) (now : Nat) (tok : Token)
    (st st' : St) (a2 r2 : Token) (rec : RefreshRecord)
    (hinv : StoreInv st)
    (hrec : storeGet st.store tok.payload.jti = some rec)
    (hsub : rec.sub = tok.payload.sub)
    (h : rotateRefreshToken env now tok st = (Except.ok (a2, r2), st')) :
    storeGet st'.store tok.payload.jti = some { rec with valid := false } ∧
    (∃ fam expv, storeGet st'.store r2.payload.jti
       = some { jti := r2.payload.jti, sub := tok.payload.sub, family := fam,
                valid := true, expiresAt := expv }) ∧
    (∀ j, j ≠ tok.payload.jti → j ≠ r2.payload.jti →
       storeGet st'.store j = storeGet st.store j) ∧
    countValidFor st'.store tok.payload.sub
      = countValidFor st.store tok.payload.sub := by
  rcases rotate_ok_inv env now tok st (a2, r2) st' h with
    ⟨record, hv, ht, hg, hrv, hres, hst'⟩
  rw [hrec] at hg
  injection hg with hg'
  subst hg'
  rcases hinv _ (storeGet_mem _ _ _ hrec) with ⟨hjk0, hklt0⟩
  have hjk : rec.jti = tok.payload.jti := hjk0
  have hklt : tok.payload.jti < st.nextId := hklt0
  rw [issueTokens_def, Prod.mk.injEq] at hres
  obtain ⟨ha2, hr2⟩ := hres
  subst ha2 hr2 hst'
  have hfreshA : ∀ p ∈ storeSet st.store rec.jti { rec with valid := false },
      p.1 ≠ st.nextId + 1 := by
    intro p hp
    rcases mem_of_mem_storeSet _ _ _ _ hp with hpe | hpm
    · rw [hpe]
      show rec.jti ≠ st.nextId + 1
      omega
    · have := hinv p hpm
      omega
  refine ⟨?_, ?_, ?_, ?_⟩
  · simp only [issueTokens_def]
    rw [storeGet_storeSet_ne _ _ _ _ (by omega)]
    rw [hjk]
    exact storeGet_storeSet_self _ _ _
  · refine ⟨st.nextId + 2,
      if now + env.REFRESH_TOKEN_TTL ≠ 0 then (now + env.REFRESH_TOKEN_TTL) * 1000
      else now * 1000 + 7 * 24 * 3600 * 1000, ?_⟩
    simp only [issueTokens_def]
    exact storeGet_storeSet_self _ _ _
  · intro j hj1 hj2
    have hj2' : j ≠ st.nextId + 1 := hj2
    simp only [issueTokens_def]
    rw [storeGet_storeSet_ne _ _ _ _ hj2']
    rw [storeGet_storeSet_ne _ _ _ _ (by rw [hjk]; exact hj1)]
  · have e1 : countValidFor (storeSet st.store rec.jti { rec with valid := false })
        tok.payload.sub + countOne rec tok.payload.sub
        = countValidFor st.store tok.payload.sub
          + countOne { rec with valid := false } tok.payload.sub := by
      have hrec2 : storeGet st.store rec.jti = some rec := by
        rw [hjk]
        exact hrec
      exact countValidFor_storeSet_of_get st.store rec.jti
        { rec with valid := false } rec tok.payload.sub hrec2
    have hone : countOne rec tok.payload.sub = 1 := by
      simp [countOne, hsub, hrv]
    have hzero : countOne ({ rec with valid := false }) tok.payload.sub = 0 := by
      simp [countOne]
    simp only [issueTokens_def]
    rw [countValidFor_storeSet_fresh _ _ _ _ hfreshA]
    have hnew : countOne
        { jti := st.nextId + 1, sub := tok.payload.sub, family := st.nextId + 2,
          valid := true,
          expiresAt := if now + env.REFRESH_TOKEN_TTL ≠ 0
                       then (now + env.REFRESH_TOKEN_TTL) * 1000
                       else now * 1000 + 7 * 24 * 3600 * 1000 } tok.payload.sub = 1 := by
      simp [countOne]
    omega

/-- C10 witness: the concrete rotation of `refreshTok1` over `st1W`. -/
theorem rotate_preserves_valid_count_witness :
    storeGet st2W.store refreshTok1.payload.jti = some { rec1 with valid := false } ∧
    (∃ fam expv, storeGet st2W.store refreshTok2.payload.jti
       = some { jti := refreshTok2.payload.jti, sub := refreshTok1.payload.sub,
                family := fam, valid := true, expiresAt := expv }) ∧
    (∀ j, j ≠ refreshTok1.payload.jti → j ≠ refreshTok2.payload.jti →
       storeGet st2W.store j = storeGet st1W.store j) ∧
    countValidFor st2W.store refreshTok1.payload.sub
      = countValidFor st1W.store refreshTok1.payload.sub :=
  rotate_preserves_valid_count testEnv 0 refreshTok1 st1W st2W accessTok2 refreshTok2 rec1
    (by show ∀ p ∈ st1W.store, p.2.jti = p.1 ∧ p.1 < st1W.nextId
        decide)
    rfl rfl rfl
